import Mathlib

/-! Verification of the HMS room bridge (`pkg/sip/hmsroom.go`) and of `getConfig`
(`cmd/server/main.go`).

The Go code is embedded as pure state-passing functions.

* A pointer to a mixer input (`*mixer.Input`) is a natural number handle.
* A `media.Writer[media.PCM16Sample]` interface value is `Option Nat`: `none` is the
  `nil` writer, `some d` the destination with identity `d`.
* Calls into collaborators that the handler cannot influence (the remote track, the RTP
  parser, the Opus decoder, the file system, the YAML parser) are inputs of the model:
  a script of read results, or a function passed in a record.
* Every observable step of the track-update handler is recorded in a trace of `Effect`s.
-/

set_option autoImplicit false

namespace Sip

/-! ## Collaborators of `pkg/mixer` and `pkg/media` -/

/-- Raw bytes, as held by a Go byte slice. -/
abbrev Bytes := List Nat

/-- Go `media.PCM16Sample`, a slice of signed 16-bit samples. -/
abbrev PCM16Sample := List Int

/-- Go `media.Writer[media.PCM16Sample]` interface value; `none` is `nil`. -/
abbrev Writer := Option Nat

/-- Go `error` values. -/
inductive Err where
  | ErrNoConfig : Err
  | other : String → Err
  deriving DecidableEq, Repr

/-- Modelled from the spec: the type `media.SwitchWriter` of `pkg/media` is missing from
the sources.  Spec 3 and 4.2: the Output Sink holds a single current destination
reference, which may be unset. -/
structure SwitchWriter where
  dest : Writer
  deriving DecidableEq, Repr

/-- Modelled from the spec: `SwitchWriter.Set` is missing from the sources.  Spec 4.2:
"atomically replaces the current destination". -/
def SwitchWriter.Set (_s : SwitchWriter) (w : Writer) : SwitchWriter :=
  { dest := w }

/-- Modelled from the spec: `SwitchWriter.Get` is missing from the sources.  Spec 4.2:
"`Get() → currentDestination`: read access". -/
def SwitchWriter.Get (s : SwitchWriter) : Writer :=
  s.dest

/-- Modelled from the spec: `SwitchWriter.WriteSample` is missing from the sources.
Spec 4.2: a frame is delivered to the current destination, and in the unset state
"deliveries are dropped silently (not an error)".  The result is the delivery made, if
any: the destination together with the frame. -/
def SwitchWriter.WriteSample (s : SwitchWriter) (pcm : PCM16Sample) :
    Option (Nat × PCM16Sample) :=
  match s.Get with
  | none => none
  | some d => some (d, pcm)

/-- The writer a mixer was constructed on.  `NewHMSRoom` passes `&r.out`, a pointer into
the room itself; `fixed w` stands for any writer value that is not that pointer. -/
inductive WriterRef where
  | roomOut : WriterRef
  | fixed : Writer → WriterRef
  deriving DecidableEq, Repr

/-- Modelled from the spec: the type `mixer.Mixer` of `pkg/mixer` is missing from the
sources.  Spec 2 and 3: the mixer "owns a set of Inputs" and "drives an Output Sink";
a Mixer Input has an "identity (opaque handle)".  `inputs` lists the handles of the
inputs currently in the mixer, in the order they were added; `next` counts the inputs
allocated so far, so that every allocation yields a handle never handed out before
(a Go pointer to a new object). -/
structure Mixer where
  out : WriterRef
  sampleRate : Nat
  inputs : List Nat
  next : Nat
  deriving DecidableEq, Repr

/-- Modelled from the spec: `mixer.NewMixer` is missing from the sources.  A new mixer
has no inputs. -/
def NewMixer (out : WriterRef) (sampleRate : Nat) : Mixer :=
  { out := out, sampleRate := sampleRate, inputs := [], next := 0 }

/-- Modelled from the spec: `Mixer.AddInput` is missing from the sources.  Spec 4.1:
"`AddInput() → InputHandle`: allocates a new Input ...; returns a handle".  Total. -/
def Mixer.AddInput (m : Mixer) : Mixer × Nat :=
  ({ m with inputs := m.inputs ++ [m.next], next := m.next + 1 }, m.next)

/-- Modelled from the spec: `Mixer.RemoveInput` is missing from the sources.  Spec 4.1:
"`RemoveInput(handle)`: deactivates and frees the Input"; spec 7: total.  The handle
is taken out of the input set; other inputs are untouched. -/
def Mixer.RemoveInput (m : Mixer) (inp : Nat) : Mixer :=
  { m with inputs := m.inputs.filter (fun i => i != inp) }

/-- Every handle in the mixer was produced by an earlier allocation. -/
def Mixer.WF (m : Mixer) : Prop :=
  ∀ i ∈ m.inputs, i < m.next

instance (m : Mixer) : Decidable m.WF := by
  unfold Mixer.WF; infer_instance

/-! ## `pkg/sip/hmsroom.go` -/

/-- Go `HmsRoom`: the fields `mix` and `out`.  The SDK handle, the store and the observer
belong to the external SDK and carry no state the functions below read. -/
structure HmsRoom where
  mix : Mixer
  out : SwitchWriter
  deriving DecidableEq, Repr

/-- Go `HmsTrack`.  The `room` pointer is the room the functions below are run on. -/
structure HmsTrack where
  inp : Nat
  deriving DecidableEq, Repr

/-- Go `NewHMSRoom`.  `sdkErr` is the error result of `hms.New`; `sampleRate` is the
package constant of that name, declared outside the given sources. -/
def NewHMSRoom (sdkErr : Option Err) (sampleRate : Nat) : Except Err HmsRoom :=
  match sdkErr with
  | some err => .error err
  | none => .ok { mix := NewMixer .roomOut sampleRate, out := { dest := none } }

/-- Go `(*HmsRoom).Output`, on a non-nil receiver. -/
def HmsRoom.Output (r : HmsRoom) : Writer :=
  r.out.Get

/-- Go `(*HmsRoom).SetOutput`.  The receiver is a pointer; `none` is the nil pointer. -/
def SetOutput (r : Option HmsRoom) (out : Writer) : Option HmsRoom :=
  match r with
  | none => none
  | some r => some { r with out := r.out.Set out }

/-- The delivery made when the room's mixer writes one mixed frame to the writer it was
constructed on. -/
def HmsRoom.mixerWrite (r : HmsRoom) (pcm : PCM16Sample) : Option (Nat × PCM16Sample) :=
  match r.mix.out with
  | .roomOut => r.out.WriteSample pcm
  | .fixed w => (SwitchWriter.mk w).WriteSample pcm

/-- Go `(*HmsRoom).NewTrack`. -/
def HmsRoom.NewTrack (r : HmsRoom) : HmsRoom × HmsTrack :=
  let (mix, inp) := r.mix.AddInput
  ({ r with mix := mix }, { inp := inp })

/-- Go `(*HmsTrack).Close`, run on the track's room.  The second component is the
returned error, `none` for `nil`. -/
def HmsTrack.Close (t : HmsTrack) (r : HmsRoom) : HmsRoom × Option Err :=
  ({ r with mix := r.mix.RemoveInput t.inp }, none)

/-- Go `(*HmsTrack).WriteSample`.  `inpWrite` is `(*mixer.Input).WriteSample`, which acts
on a state of type `β` owned by the mixer package. -/
def HmsTrack.WriteSample {β : Type} (inpWrite : Nat → PCM16Sample → β → β × Option Err)
    (t : HmsTrack) (pcm : PCM16Sample) (b : β) : β × Option Err :=
  inpWrite t.inp pcm b

/-! ### The track-update handler registered by `Connect` -/

/-- Go `rtc.TrackUpdate`, an enumeration of the external SDK of which the handler names
only `TrackAdded`. -/
inductive TrackUpdate where
  | TrackAdded : TrackUpdate
  | other : Nat → TrackUpdate
  deriving DecidableEq, Repr

/-- Go `webrtc.RTPCodecType`. -/
inductive RTPCodecType where
  | RTPCodecTypeUnknown : RTPCodecType
  | RTPCodecTypeAudio : RTPCodecType
  | RTPCodecTypeVideo : RTPCodecType
  deriving DecidableEq, Repr

/-- Go `*rtc.SubscribeTrack` as the handler sees it: its kind, and the results of the
successive `track.Read` calls, `none` for an error and `some b` for a packet `b`, of which
`buf[:n]` holds what fits the buffer.  When the results are used up the next `Read` does
not return. -/
structure SubscribeTrack where
  kind : RTPCodecType
  reads : List (Option Bytes)
  deriving DecidableEq, Repr

/-- The media collaborators of the handler: whether `opus.Decode` succeeds, the RTP
parser `(*rtp.Packet).Unmarshal`, and `HandleRTP` of the media stream, which acts on a
decoder state of type `σ`; `true` means a nil error. -/
structure Media (P σ : Type) where
  decodeOk : Bool
  dec0 : σ
  unmarshal : Bytes → Option P
  handleRTP : σ → P → Bool × σ

/-- One observable step of the handler. -/
inductive Effect (P : Type) where
  | log : String → Effect P
  | newTrack : Nat → Effect P
  | opusDecode : Bool → Effect P
  | read : Option Bytes → Effect P
  | handleRTP : P → Effect P
  | closeTrack : Nat → Effect P
  deriving DecidableEq, Repr

/-- Whether the handler has returned, or is still waiting inside `track.Read`. -/
inductive Status where
  | returned : Status
  | blocked : Status
  deriving DecidableEq, Repr

/-- Size of the read buffer, `make([]byte, 1460)`. -/
def bufSize : Nat := 1460

/-- The `for` loop of the handler, lines 58 to 77: the steps taken and how it ends. -/
def readLoop {P σ : Type} (E : Media P σ) : σ → List (Option Bytes) → List (Effect P) × Status
  | _, [] => ([], .blocked)
  | _, none :: _ => ([.read none, .log "track.Read done"], .returned)
  | s, some b :: rest =>
    match E.unmarshal (b.take bufSize) with
    | none => ([.read (some b), .log "invalid packet"], .returned)
    | some pkt =>
      match E.handleRTP s pkt with
      | (false, _) => ([.read (some b), .handleRTP pkt, .log "handleRTP error"], .returned)
      | (true, s') =>
        let (tr, st) := readLoop E s' rest
        (.read (some b) :: .handleRTP pkt :: tr, st)

/-- Result of one invocation of the handler. -/
structure Run (P : Type) where
  room : HmsRoom
  trace : List (Effect P)
  status : Status

/-- The closure passed to `OnTrackUpdate` in `Connect`, lines 41 to 79.  The deferred
`mtrack.Close()` runs on every return after `NewTrack`. -/
def onTrackUpdate {P σ : Type} (E : Media P σ) (r : HmsRoom) (typ : TrackUpdate)
    (track : SubscribeTrack) : Run P :=
  match typ with
  | .TrackAdded =>
    if track.kind ≠ .RTPCodecTypeAudio then
      { room := r, trace := [.log "onTrackUpdate"], status := .returned }
    else
      let (r1, mtrack) := r.NewTrack
      if E.decodeOk = false then
        { room := (mtrack.Close r1).1,
          trace := [.log "onTrackUpdate", .newTrack mtrack.inp, .opusDecode false,
                    .closeTrack mtrack.inp],
          status := .returned }
      else
        match readLoop E E.dec0 track.reads with
        | (tr, .returned) =>
          { room := (mtrack.Close r1).1,
            trace := [.log "onTrackUpdate", .newTrack mtrack.inp, .opusDecode true] ++ tr ++
                     [.closeTrack mtrack.inp],
            status := .returned }
        | (tr, .blocked) =>
          { room := r1,
            trace := [.log "onTrackUpdate", .newTrack mtrack.inp, .opusDecode true] ++ tr,
            status := .blocked }
  | .other _ =>
    { room := r, trace := [.log "onTrackUpdate"], status := .returned }

/-! ### `NewParticipant` -/

/-- Go `*rtc.PublishTrack` built on a `CustomTrack`: the identifiers of the underlying
local track and the enabled state. -/
structure PublishTrack where
  id : String
  streamId : String
  enabled : Bool
  deriving DecidableEq, Repr

/-- Go `rtc.NewPublishTrack` of the external SDK: `enabled0` is the enabled state it gives
a new publish track, which the sources do not show. -/
def NewPublishTrack (id streamId : String) (enabled0 : Bool) : PublishTrack :=
  { id := id, streamId := streamId, enabled := enabled0 }

/-- Go `(*rtc.PublishTrack).SetEnabled`. -/
def PublishTrack.SetEnabled (t : PublishTrack) (enabled : Bool) : PublishTrack :=
  { t with enabled := enabled }

/-- The collaborators of `NewParticipant`: the two results of `utils.NewTrackID`, in call
order, the enabled state of a new publish track, the error results of
`webrtc.NewTrackLocalStaticSample` and of `opus.Encode`, and the writer `opus.Encode`
returns on success. -/
structure ParticipantEnv where
  streamId : String
  trackId : String
  enabled0 : Bool
  newTrackErr : Option Err
  encodeErr : Option Err
  encoder : Nat
  deriving DecidableEq, Repr

/-- Result of `NewParticipant`: the returned pair, and the arguments of every
`Publish` call it has scheduled on a goroutine by the time it returns. -/
structure ParticipantResult where
  writer : Writer
  err : Option Err
  scheduled : List (List PublishTrack)
  deriving DecidableEq, Repr

/-- Go `(*HmsRoom).NewParticipant`.  The goroutine that publishes is started before
`opus.Encode` is called. -/
def NewParticipant (env : ParticipantEnv) : ParticipantResult :=
  match env.newTrackErr with
  | some err => { writer := none, err := some err, scheduled := [] }
  | none =>
    let pubTrack := (NewPublishTrack env.trackId env.streamId env.enabled0).SetEnabled true
    let scheduled := [[pubTrack]]
    match env.encodeErr with
    | some err => { writer := none, err := some err, scheduled := scheduled }
    | none => { writer := some env.encoder, err := none, scheduled := scheduled }

/-! ## `cmd/server/main.go` -/

/-- The collaborators of `getConfig`: `os.ReadFile`, `config.NewConfig`, and
`(*config.Config).Init`, which may change the configuration it is called on. -/
structure ConfigEnv (C : Type) where
  readFile : String → Except Err String
  newConfig : String → Except Err C
  init : C → C × Option Err

/-- A call made by `getConfig`. -/
inductive ConfigCall where
  | readFile : String → ConfigCall
  | newConfig : String → ConfigCall
  | init : ConfigCall
  deriving DecidableEq, Repr

/-- Result of `getConfig`: the returned pair and the calls made, in order. -/
structure ConfigResult (C : Type) where
  conf : Option C
  err : Option Err
  calls : List ConfigCall

/-- The part of `getConfig` after the configuration body is known, lines 142 to 154. -/
def parseConfig {C : Type} (env : ConfigEnv C) (configBody : String) (initFlag : Bool)
    (calls : List ConfigCall) : ConfigResult C :=
  match env.newConfig configBody with
  | .error err => { conf := none, err := some err, calls := calls ++ [.newConfig configBody] }
  | .ok conf =>
    if initFlag then
      match env.init conf with
      | (_, some err) =>
        { conf := none, err := some err, calls := calls ++ [.newConfig configBody, .init] }
      | (conf, none) =>
        { conf := some conf, err := none, calls := calls ++ [.newConfig configBody, .init] }
    else
      { conf := some conf, err := none, calls := calls ++ [.newConfig configBody] }

/-- Go `getConfig`.  `configFile` and `configBody` are the values of the `config` and
`config-body` flags; `initFlag` is the parameter named `initialize` in the source. -/
def getConfig {C : Type} (env : ConfigEnv C) (configFile configBody : String)
    (initFlag : Bool) : ConfigResult C :=
  if configBody = "" then
    if configFile = "" then
      { conf := none, err := some .ErrNoConfig, calls := [] }
    else
      match env.readFile configFile with
      | .error err => { conf := none, err := some err, calls := [.readFile configFile] }
      | .ok content => parseConfig env content initFlag [.readFile configFile]
  else
    parseConfig env configBody initFlag []

/-! ## Trace projections and sample inputs -/

/-- The packets passed to `HandleRTP`, in order. -/
def handled {P : Type} : List (Effect P) → List P
  | [] => []
  | .handleRTP p :: tr => p :: handled tr
  | _ :: tr => handled tr

/-- The buffers returned by successful `track.Read` calls, in order. -/
def okReads {P : Type} : List (Effect P) → List Bytes
  | [] => []
  | .read (some b) :: tr => b :: okReads tr
  | _ :: tr => okReads tr

/-- The number of `track.Read` calls that returned. -/
def readCount {P : Type} : List (Effect P) → Nat
  | [] => 0
  | .read _ :: tr => readCount tr + 1
  | _ :: tr => readCount tr

/-- The decoder state once the loop has read, parsed and handled the packets `bs` one
after the other from state `s`, none of them failing; `none` when one of them does not
parse or is refused by `HandleRTP`. -/
def afterPackets {P σ : Type} (E : Media P σ) : σ → List Bytes → Option σ
  | s, [] => some s
  | s, b :: bs =>
    match E.unmarshal (b.take bufSize) with
    | none => none
    | some pkt =>
      match E.handleRTP s pkt with
      | (false, _) => none
      | (true, s') => afterPackets E s' bs

/-- The mixer calls made, in order: `true` with the handle returned by `AddInput` (made by
`NewTrack`), `false` with the handle passed to `RemoveInput` (made by `Close`). -/
def mixerCalls {P : Type} : List (Effect P) → List (Bool × Nat)
  | [] => []
  | .newTrack h :: tr => (true, h) :: mixerCalls tr
  | .closeTrack h :: tr => (false, h) :: mixerCalls tr
  | _ :: tr => mixerCalls tr

/-- A sequence of mixer calls made by anyone between two points of interest:
`none` is `AddInput`, `some h` is `RemoveInput h`. -/
def Mixer.apply (m : Mixer) : List (Option Nat) → Mixer
  | [] => m
  | none :: ops => Mixer.apply m.AddInput.1 ops
  | some h :: ops => Mixer.apply (m.RemoveInput h) ops

/-- A sequence of `SetOutput` calls on one room pointer. -/
def SetOutputs (r : Option HmsRoom) : List Writer → Option HmsRoom
  | [] => r
  | w :: ws => SetOutputs (SetOutput r w) ws

/-- Sample media collaborators: a packet parses when it has at least two bytes, and
`HandleRTP` fails on a packet whose first byte is 255; the decoder state counts the
packets handled. -/
def sampleMedia : Media Bytes Nat :=
  { decodeOk := true
    dec0 := 0
    unmarshal := fun b => if b.length < 2 then none else some b
    handleRTP := fun s p => (p.head? != some 255, s + 1) }

/-- A sample room: one input, handle 0, already in the mixer. -/
def sampleRoom : HmsRoom :=
  { mix := { out := .roomOut, sampleRate := 48000, inputs := [0], next := 1 },
    out := { dest := none } }

/-- A sample audio track whose stream ends: one good packet, then a failed read. -/
def closedTrack : SubscribeTrack :=
  { kind := .RTPCodecTypeAudio, reads := [some [1, 2, 3], none] }

/-- A sample audio track that delivers a packet that does not parse and then a good one. -/
def badPacketTrack : SubscribeTrack :=
  { kind := .RTPCodecTypeAudio, reads := [some [9], some [1, 2, 3]] }

/-- A sample audio track that stays open: one good packet, and then nothing arrives. -/
def openTrack : SubscribeTrack :=
  { kind := .RTPCodecTypeAudio, reads := [some [1, 2, 3]] }

/-- A sample audio track whose second packet is refused by `HandleRTP`, with a good
packet after it. -/
def handleErrTrack : SubscribeTrack :=
  { kind := .RTPCodecTypeAudio, reads := [some [1, 2, 3], some [255, 5], some [4, 5]] }

/-- Sample media collaborators for which `opus.Decode` fails. -/
def noDecoderMedia : Media Bytes Nat :=
  { sampleMedia with decodeOk := false }

/-- A sample video track. -/
def videoTrack : SubscribeTrack :=
  { kind := .RTPCodecTypeVideo, reads := [some [1, 2, 3], none] }

/-- Sample configuration collaborators: only the file `sip.yaml` exists, a body parses
when it is not `bad`, and `Init` fails on the body `noinit`. -/
def sampleConfigEnv : ConfigEnv String :=
  { readFile := fun p => if p = "sip.yaml" then .ok "port: 5060" else .error (.other "ENOENT")
    newConfig := fun b => if b = "bad" then .error (.other "yaml") else .ok b
    init := fun c => if c = "noinit" then (c, some (.other "init")) else (c ++ "!", none) }

end Sip

/-! ## Lemmas on the mixer model -/

namespace Sip

theorem NewMixer_WF (out : WriterRef) (sampleRate : Nat) : (NewMixer out sampleRate).WF := by
  intro i hi
  simp [NewMixer] at hi

theorem AddInput_WF (m : Mixer) (h : m.WF) : m.AddInput.1.WF := by
  intro i hi
  simp only [Mixer.AddInput, List.mem_append, List.mem_singleton] at hi
  rcases hi with hi | hi
  · exact Nat.lt_succ_of_lt (h i hi)
  · subst hi; exact Nat.lt_succ_self _

theorem RemoveInput_WF (m : Mixer) (inp : Nat) (h : m.WF) : (m.RemoveInput inp).WF := by
  intro i hi
  simp only [Mixer.RemoveInput, List.mem_filter] at hi
  exact h i hi.1

theorem filter_bne_of_not_mem (l : List Nat) (n : Nat) (h : n ∉ l) :
    l.filter (fun i => i != n) = l := by
  rw [List.filter_eq_self]
  intro a ha
  have : a ≠ n := fun e => h (e ▸ ha)
  simpa using this

theorem WF_next_not_mem (m : Mixer) (h : m.WF) : m.next ∉ m.inputs :=
  fun hm => Nat.lt_irrefl _ (h _ hm)

theorem RemoveInput_AddInput (m : Mixer) (h : m.WF) :
    (m.AddInput.1.RemoveInput m.AddInput.2).inputs = m.inputs := by
  simp only [Mixer.AddInput, Mixer.RemoveInput, List.filter_append, List.filter_cons,
    List.filter_nil, bne_self_eq_false]
  simp [filter_bne_of_not_mem m.inputs m.next (WF_next_not_mem m h)]

theorem RemoveInput_idem (m : Mixer) (inp : Nat) :
    (m.RemoveInput inp).RemoveInput inp = m.RemoveInput inp := by
  simp [Mixer.RemoveInput, List.filter_filter]

theorem apply_next_le (ops : List (Option Nat)) (m : Mixer) : m.next ≤ (m.apply ops).next := by
  induction ops generalizing m with
  | nil => exact Nat.le_refl _
  | cons op ops ih =>
    cases op with
    | none => exact Nat.le_trans (Nat.le_succ _) (ih m.AddInput.1)
    | some h => exact ih (m.RemoveInput h)

end Sip

/-! ## Lemmas on the read loop -/

namespace Sip

section Loop

variable {P σ : Type} (E : Media P σ)

theorem readLoop_nil (s : σ) : readLoop E s [] = ([], .blocked) := rfl

theorem readLoop_none (s : σ) (rest : List (Option Bytes)) :
    readLoop E s (none :: rest) = ([.read none, .log "track.Read done"], .returned) := rfl

theorem readLoop_bad (s : σ) (b : Bytes) (rest : List (Option Bytes))
    (hu : E.unmarshal (b.take bufSize) = none) :
    readLoop E s (some b :: rest) = ([.read (some b), .log "invalid packet"], .returned) := by
  simp [readLoop, hu]

theorem readLoop_handleErr (s s' : σ) (b : Bytes) (pkt : P) (rest : List (Option Bytes))
    (hu : E.unmarshal (b.take bufSize) = some pkt) (hh : E.handleRTP s pkt = (false, s')) :
    readLoop E s (some b :: rest) =
      ([.read (some b), .handleRTP pkt, .log "handleRTP error"], .returned) := by
  simp [readLoop, hu, hh]

theorem readLoop_ok (s s' : σ) (b : Bytes) (pkt : P) (rest : List (Option Bytes))
    (hu : E.unmarshal (b.take bufSize) = some pkt) (hh : E.handleRTP s pkt = (true, s')) :
    readLoop E s (some b :: rest) =
      (.read (some b) :: .handleRTP pkt :: (readLoop E s' rest).1, (readLoop E s' rest).2) := by
  simp [readLoop, hu, hh]

/-- The loop returns when some read of the script fails. -/
theorem readLoop_returned_of_none (reads : List (Option Bytes)) (s : σ) (h : none ∈ reads) :
    (readLoop E s reads).2 = .returned := by
  induction reads generalizing s with
  | nil => simp at h
  | cons rd rest ih =>
    cases rd with
    | none => rfl
    | some b =>
      have h' : none ∈ rest := by simpa using h
      cases hu : E.unmarshal (b.take bufSize) with
      | none => rw [readLoop_bad E s b rest hu]
      | some pkt =>
        cases hh : E.handleRTP s pkt with
        | mk ok s' =>
          cases ok with
          | false => rw [readLoop_handleErr E s s' b pkt rest hu hh]
          | true => rw [readLoop_ok E s s' b pkt rest hu hh]; exact ih s' h'

/-- The loop returns when some packet of the script does not parse. -/
theorem readLoop_returned_of_bad (reads : List (Option Bytes)) (s : σ) (b : Bytes)
    (h : some b ∈ reads) (hb : E.unmarshal (b.take bufSize) = none) :
    (readLoop E s reads).2 = .returned := by
  induction reads generalizing s with
  | nil => simp at h
  | cons rd rest ih =>
    cases rd with
    | none => rfl
    | some b' =>
      cases hu : E.unmarshal (b'.take bufSize) with
      | none => rw [readLoop_bad E s b' rest hu]
      | some pkt =>
        have h' : some b ∈ rest := by
          rcases List.mem_cons.mp h with e | e
          · have e' : b = b' := Option.some.inj e
            rw [e', hu] at hb; cases hb
          · exact e
        cases hh : E.handleRTP s pkt with
        | mk ok s' =>
          cases ok with
          | false => rw [readLoop_handleErr E s s' b' pkt rest hu hh]
          | true => rw [readLoop_ok E s s' b' pkt rest hu hh]; exact ih s' h'

/-- While the loop is waiting for a packet it has logged nothing. -/
theorem readLoop_blocked_no_log (reads : List (Option Bytes)) (s : σ)
    (h : (readLoop E s reads).2 = .blocked) (msg : String) :
    Effect.log msg ∉ (readLoop E s reads).1 := by
  induction reads generalizing s with
  | nil => simp [readLoop_nil]
  | cons rd rest ih =>
    cases rd with
    | none => rw [readLoop_none] at h; cases h
    | some b =>
      cases hu : E.unmarshal (b.take bufSize) with
      | none => rw [readLoop_bad E s b rest hu] at h; cases h
      | some pkt =>
        cases hh : E.handleRTP s pkt with
        | mk ok s' =>
          cases ok with
          | false => rw [readLoop_handleErr E s s' b pkt rest hu hh] at h; cases h
          | true =>
            rw [readLoop_ok E s s' b pkt rest hu hh] at h ⊢
            simpa using ih s' h

/-- The loop makes no mixer call. -/
theorem readLoop_mixerCalls (reads : List (Option Bytes)) (s : σ) :
    mixerCalls (readLoop E s reads).1 = [] := by
  induction reads generalizing s with
  | nil => rfl
  | cons rd rest ih =>
    cases rd with
    | none => rfl
    | some b =>
      cases hu : E.unmarshal (b.take bufSize) with
      | none => rw [readLoop_bad E s b rest hu]; rfl
      | some pkt =>
        cases hh : E.handleRTP s pkt with
        | mk ok s' =>
          cases ok with
          | false => rw [readLoop_handleErr E s s' b pkt rest hu hh]; rfl
          | true =>
            rw [readLoop_ok E s s' b pkt rest hu hh]
            simpa [mixerCalls] using ih s'

theorem mixerCalls_append (tr tr' : List (Effect P)) :
    mixerCalls (tr ++ tr') = mixerCalls tr ++ mixerCalls tr' := by
  induction tr with
  | nil => rfl
  | cons e tr ih => cases e <;> simp [mixerCalls, ih]

end Loop

end Sip

/-! ## The handler, path by path -/

namespace Sip

section Handler

variable {P σ : Type} (E : Media P σ)

theorem onTrackUpdate_other (r : HmsRoom) (n : Nat) (track : SubscribeTrack) :
    onTrackUpdate E r (.other n) track =
      { room := r, trace := [.log "onTrackUpdate"], status := .returned } := rfl

theorem onTrackUpdate_nonAudio (r : HmsRoom) (track : SubscribeTrack)
    (hk : track.kind ≠ .RTPCodecTypeAudio) :
    onTrackUpdate E r .TrackAdded track =
      { room := r, trace := [.log "onTrackUpdate"], status := .returned } := by
  simp [onTrackUpdate, hk]

theorem onTrackUpdate_decodeFail (r : HmsRoom) (track : SubscribeTrack)
    (hk : track.kind = .RTPCodecTypeAudio) (hd : E.decodeOk = false) :
    onTrackUpdate E r .TrackAdded track =
      { room := (r.NewTrack.2.Close r.NewTrack.1).1,
        trace := [.log "onTrackUpdate", .newTrack r.NewTrack.2.inp, .opusDecode false,
                  .closeTrack r.NewTrack.2.inp],
        status := .returned } := by
  simp [onTrackUpdate, hk, hd]

theorem onTrackUpdate_loopReturned (r : HmsRoom) (track : SubscribeTrack)
    (hk : track.kind = .RTPCodecTypeAudio) (hd : E.decodeOk = true)
    (hl : (readLoop E E.dec0 track.reads).2 = .returned) :
    onTrackUpdate E r .TrackAdded track =
      { room := (r.NewTrack.2.Close r.NewTrack.1).1,
        trace := [.log "onTrackUpdate", .newTrack r.NewTrack.2.inp, .opusDecode true] ++
                 (readLoop E E.dec0 track.reads).1 ++ [.closeTrack r.NewTrack.2.inp],
        status := .returned } := by
  cases hr : readLoop E E.dec0 track.reads with
  | mk tr st =>
    rw [hr] at hl
    simp only at hl
    subst hl
    simp [onTrackUpdate, hk, hd, hr]

theorem onTrackUpdate_loopBlocked (r : HmsRoom) (track : SubscribeTrack)
    (hk : track.kind = .RTPCodecTypeAudio) (hd : E.decodeOk = true)
    (hl : (readLoop E E.dec0 track.reads).2 = .blocked) :
    onTrackUpdate E r .TrackAdded track =
      { room := r.NewTrack.1,
        trace := [.log "onTrackUpdate", .newTrack r.NewTrack.2.inp, .opusDecode true] ++
                 (readLoop E E.dec0 track.reads).1,
        status := .blocked } := by
  cases hr : readLoop E E.dec0 track.reads with
  | mk tr st =>
    rw [hr] at hl
    simp only at hl
    subst hl
    simp [onTrackUpdate, hk, hd, hr]

theorem NewTrack_inp (r : HmsRoom) : r.NewTrack.2.inp = r.mix.next := rfl

theorem NewTrack_inputs (r : HmsRoom) :
    r.NewTrack.1.mix.inputs = r.mix.inputs ++ [r.mix.next] := rfl

theorem Close_NewTrack_inputs (r : HmsRoom) (h : r.mix.WF) :
    (r.NewTrack.2.Close r.NewTrack.1).1.mix.inputs = r.mix.inputs :=
  RemoveInput_AddInput r.mix h

theorem Close_NewTrack_out (r : HmsRoom) :
    (r.NewTrack.2.Close r.NewTrack.1).1.out = r.out := rfl

theorem NewHMSRoom_WF (sampleRate : Nat) (r : HmsRoom)
    (h : NewHMSRoom none sampleRate = .ok r) : r.mix.WF := by
  have e : r = { mix := NewMixer .roomOut sampleRate, out := { dest := none } } := by
    simp only [NewHMSRoom, Except.ok.injEq] at h
    exact h.symm
  rw [e]
  exact NewMixer_WF _ _

theorem NewTrack_WF (r : HmsRoom) (h : r.mix.WF) : r.NewTrack.1.mix.WF :=
  AddInput_WF r.mix h

theorem Close_WF (t : HmsTrack) (r : HmsRoom) (h : r.mix.WF) : (t.Close r).1.mix.WF :=
  RemoveInput_WF r.mix t.inp h

/-- The four ways an invocation for an added track can go. -/
theorem onTrackUpdate_cases (r : HmsRoom) (track : SubscribeTrack) :
    (track.kind ≠ .RTPCodecTypeAudio ∧
      onTrackUpdate E r .TrackAdded track =
        { room := r, trace := [.log "onTrackUpdate"], status := .returned }) ∨
    (track.kind = .RTPCodecTypeAudio ∧ E.decodeOk = false ∧
      onTrackUpdate E r .TrackAdded track =
        { room := (r.NewTrack.2.Close r.NewTrack.1).1,
          trace := [.log "onTrackUpdate", .newTrack r.NewTrack.2.inp, .opusDecode false,
                    .closeTrack r.NewTrack.2.inp],
          status := .returned }) ∨
    (track.kind = .RTPCodecTypeAudio ∧ E.decodeOk = true ∧
      (readLoop E E.dec0 track.reads).2 = .returned ∧
      onTrackUpdate E r .TrackAdded track =
        { room := (r.NewTrack.2.Close r.NewTrack.1).1,
          trace := [.log "onTrackUpdate", .newTrack r.NewTrack.2.inp, .opusDecode true] ++
                   (readLoop E E.dec0 track.reads).1 ++ [.closeTrack r.NewTrack.2.inp],
          status := .returned }) ∨
    (track.kind = .RTPCodecTypeAudio ∧ E.decodeOk = true ∧
      (readLoop E E.dec0 track.reads).2 = .blocked ∧
      onTrackUpdate E r .TrackAdded track =
        { room := r.NewTrack.1,
          trace := [.log "onTrackUpdate", .newTrack r.NewTrack.2.inp, .opusDecode true] ++
                   (readLoop E E.dec0 track.reads).1,
          status := .blocked }) := by
  by_cases hk : track.kind = .RTPCodecTypeAudio
  · cases hd : E.decodeOk with
    | false => exact Or.inr (Or.inl ⟨hk, rfl, onTrackUpdate_decodeFail E r track hk hd⟩)
    | true =>
      cases hl : (readLoop E E.dec0 track.reads).2 with
      | returned =>
        exact Or.inr (Or.inr (Or.inl ⟨hk, rfl, rfl, onTrackUpdate_loopReturned E r track hk hd hl⟩))
      | blocked =>
        exact Or.inr (Or.inr (Or.inr ⟨hk, rfl, rfl, onTrackUpdate_loopBlocked E r track hk hd hl⟩))
  · exact Or.inl ⟨hk, onTrackUpdate_nonAudio E r track hk⟩

/-- The handler keeps the mixer well formed. -/
theorem onTrackUpdate_WF (r : HmsRoom) (typ : TrackUpdate) (track : SubscribeTrack)
    (h : r.mix.WF) : (onTrackUpdate E r typ track).room.mix.WF := by
  cases typ with
  | other n => exact h
  | TrackAdded =>
    rcases onTrackUpdate_cases E r track with ⟨_, e⟩ | ⟨_, _, e⟩ | ⟨_, _, _, e⟩ | ⟨_, _, _, e⟩
    · rw [e]; exact h
    · rw [e]; exact Close_WF _ _ (NewTrack_WF r h)
    · rw [e]; exact Close_WF _ _ (NewTrack_WF r h)
    · rw [e]; exact NewTrack_WF r h

end Handler

end Sip

/-! ## The claims -/

namespace Sip

/-- The loop behaves on a script that starts with packets handled without error as it
does on the rest of the script from the state these packets leave. -/
theorem readLoop_after_status {P σ : Type} (E : Media P σ) (pre : List Bytes)
    (rest : List (Option Bytes)) (s s1 : σ) (h : afterPackets E s pre = some s1) :
    (readLoop E s (pre.map some ++ rest)).2 = (readLoop E s1 rest).2 := by
  induction pre generalizing s with
  | nil =>
    simp only [afterPackets, Option.some.injEq] at h
    subst h
    rfl
  | cons b bs ih =>
    cases hu : E.unmarshal (b.take bufSize) with
    | none => simp [afterPackets, hu] at h
    | some pkt =>
      cases hh : E.handleRTP s pkt with
      | mk ok s' =>
        cases ok with
        | false => simp [afterPackets, hu, hh] at h
        | true =>
          have h' : afterPackets E s' bs = some s1 := by simpa [afterPackets, hu, hh] using h
          simp only [List.map_cons, List.cons_append]
          rw [readLoop_ok E s s' b pkt (bs.map some ++ rest) hu hh]
          exact ih s' h'

/-- The loop returns when, after packets handled without error, it reads a packet that
parses and that `HandleRTP` refuses in the state reached. -/
theorem readLoop_returned_of_handleErr {P σ : Type} (E : Media P σ) (pre : List Bytes)
    (b : Bytes) (rest : List (Option Bytes)) (pkt : P) (s s1 : σ)
    (h : afterPackets E s pre = some s1) (hu : E.unmarshal (b.take bufSize) = some pkt)
    (hh : (E.handleRTP s1 pkt).1 = false) :
    (readLoop E s (pre.map some ++ some b :: rest)).2 = .returned := by
  rw [readLoop_after_status E pre (some b :: rest) s s1 h]
  cases hp : E.handleRTP s1 pkt with
  | mk ok s2 =>
    rw [hp] at hh
    simp only at hh
    subst hh
    rw [readLoop_handleErr E s1 s2 b pkt rest hu hp]

/-- The invocation returns when its loop does. -/
theorem onTrackUpdate_returned_of_loop {P σ : Type} (E : Media P σ) (r : HmsRoom)
    (track : SubscribeTrack) (h : (readLoop E E.dec0 track.reads).2 = .returned) :
    (onTrackUpdate E r .TrackAdded track).status = .returned := by
  rcases onTrackUpdate_cases E r track with ⟨_, e⟩ | ⟨_, _, e⟩ | ⟨_, _, _, e⟩ | ⟨_, _, hl, e⟩
  · rw [e]
  · rw [e]
  · rw [e]
  · rw [h] at hl; cases hl

/-- An invocation that has returned leaves the inputs as they were, having made no mixer
call or one `AddInput` and one `RemoveInput` of the handle obtained. -/
theorem onTrackUpdate_returned_inputs {P σ : Type} (E : Media P σ) (r : HmsRoom)
    (track : SubscribeTrack) (hwf : r.mix.WF)
    (h : (onTrackUpdate E r .TrackAdded track).status = .returned) :
    (onTrackUpdate E r .TrackAdded track).room.mix.inputs = r.mix.inputs ∧
    (mixerCalls (onTrackUpdate E r .TrackAdded track).trace = [] ∨
     mixerCalls (onTrackUpdate E r .TrackAdded track).trace =
       [(true, r.mix.next), (false, r.mix.next)]) := by
  rcases onTrackUpdate_cases E r track with ⟨_, e⟩ | ⟨_, _, e⟩ | ⟨_, _, _, e⟩ | ⟨_, _, _, e⟩
  · rw [e]; exact ⟨rfl, Or.inl rfl⟩
  · rw [e]; exact ⟨Close_NewTrack_inputs r hwf, Or.inr rfl⟩
  · rw [e]
    refine ⟨Close_NewTrack_inputs r hwf, Or.inr ?_⟩
    simp only [mixerCalls_append, readLoop_mixerCalls]
    rfl
  · rw [e] at h; cases h

/-- C1: an invocation of the track-update handler for a TrackAdded event returns, with the
mixer's inputs exactly those before the event, on each of the exits named: a track that
is not an audio track; a failure of opus.Decode; a track one of whose reads fails; a track
that delivers a packet that does not parse; and a track that delivers, after packets
handled without error, a packet that parses and that HandleRTP refuses in the decoder
state reached.  Whenever it returns, on whatever path, the inputs are those before the
event, and the handler made either no mixer call, or one AddInput (through NewTrack)
followed by one RemoveInput (through the deferred Close) of the handle AddInput
returned. -/
theorem onTrackUpdate_added_restores_inputs {P σ : Type} (E : Media P σ) (r : HmsRoom)
    (track : SubscribeTrack) (hwf : r.mix.WF) :
    (track.kind ≠ .RTPCodecTypeAudio →
      (onTrackUpdate E r .TrackAdded track).status = .returned ∧
      (onTrackUpdate E r .TrackAdded track).room.mix.inputs = r.mix.inputs) ∧
    (E.decodeOk = false →
      (onTrackUpdate E r .TrackAdded track).status = .returned ∧
      (onTrackUpdate E r .TrackAdded track).room.mix.inputs = r.mix.inputs) ∧
    (none ∈ track.reads →
      (onTrackUpdate E r .TrackAdded track).status = .returned ∧
      (onTrackUpdate E r .TrackAdded track).room.mix.inputs = r.mix.inputs) ∧
    ((∃ b, some b ∈ track.reads ∧ E.unmarshal (b.take bufSize) = none) →
      (onTrackUpdate E r .TrackAdded track).status = .returned ∧
      (onTrackUpdate E r .TrackAdded track).room.mix.inputs = r.mix.inputs) ∧
    ((∃ pre b rest pkt s, track.reads = pre.map some ++ some b :: rest ∧
        afterPackets E E.dec0 pre = some s ∧ E.unmarshal (b.take bufSize) = some pkt ∧
        (E.handleRTP s pkt).1 = false) →
      (onTrackUpdate E r .TrackAdded track).status = .returned ∧
      (onTrackUpdate E r .TrackAdded track).room.mix.inputs = r.mix.inputs) ∧
    ((onTrackUpdate E r .TrackAdded track).status = .returned →
      (onTrackUpdate E r .TrackAdded track).room.mix.inputs = r.mix.inputs ∧
      (mixerCalls (onTrackUpdate E r .TrackAdded track).trace = [] ∨
       mixerCalls (onTrackUpdate E r .TrackAdded track).trace =
         [(true, r.mix.next), (false, r.mix.next)])) := by
  have fin : (onTrackUpdate E r .TrackAdded track).status = .returned →
      (onTrackUpdate E r .TrackAdded track).status = .returned ∧
      (onTrackUpdate E r .TrackAdded track).room.mix.inputs = r.mix.inputs :=
    fun h => ⟨h, (onTrackUpdate_returned_inputs E r track hwf h).1⟩
  refine ⟨fun hk => fin ?_, fun hd => fin ?_, fun hn => fin ?_, fun hb => fin ?_,
    fun hh => fin ?_, onTrackUpdate_returned_inputs E r track hwf⟩
  · rw [onTrackUpdate_nonAudio E r track hk]
  · by_cases hk : track.kind = .RTPCodecTypeAudio
    · rw [onTrackUpdate_decodeFail E r track hk hd]
    · rw [onTrackUpdate_nonAudio E r track hk]
  · exact onTrackUpdate_returned_of_loop E r track
      (readLoop_returned_of_none E track.reads E.dec0 hn)
  · obtain ⟨b, hb1, hb2⟩ := hb
    exact onTrackUpdate_returned_of_loop E r track
      (readLoop_returned_of_bad E track.reads E.dec0 b hb1 hb2)
  · obtain ⟨pre, b, rest, pkt, s, h1, h2, h3, h4⟩ := hh
    apply onTrackUpdate_returned_of_loop E r track
    rw [h1]
    exact readLoop_returned_of_handleErr E pre b rest pkt E.dec0 s h2 h3 h4

/-- Witness for C1: each of the five exits is run on a room that already holds one input:
the sample video track; a decoder that cannot be built; the sample track whose second read
fails; the sample track whose first packet does not parse; and the sample track whose
second packet HandleRTP refuses. -/
theorem onTrackUpdate_added_restores_inputs_witness :
    sampleRoom.mix.WF ∧
    ((onTrackUpdate sampleMedia sampleRoom .TrackAdded videoTrack).status = .returned ∧
      (onTrackUpdate sampleMedia sampleRoom .TrackAdded videoTrack).room.mix.inputs = [0]) ∧
    ((onTrackUpdate noDecoderMedia sampleRoom .TrackAdded openTrack).status = .returned ∧
      (onTrackUpdate noDecoderMedia sampleRoom .TrackAdded openTrack).room.mix.inputs = [0]) ∧
    ((onTrackUpdate sampleMedia sampleRoom .TrackAdded closedTrack).status = .returned ∧
      (onTrackUpdate sampleMedia sampleRoom .TrackAdded closedTrack).room.mix.inputs = [0]) ∧
    ((onTrackUpdate sampleMedia sampleRoom .TrackAdded badPacketTrack).status = .returned ∧
      (onTrackUpdate sampleMedia sampleRoom .TrackAdded badPacketTrack).room.mix.inputs =
        [0]) ∧
    (afterPackets sampleMedia sampleMedia.dec0 [[1, 2, 3]] = some 1 ∧
      (sampleMedia.handleRTP 1 [255, 5]).1 = false ∧
      (onTrackUpdate sampleMedia sampleRoom .TrackAdded handleErrTrack).status = .returned ∧
      (onTrackUpdate sampleMedia sampleRoom .TrackAdded handleErrTrack).room.mix.inputs =
        [0]) :=
  have hwf : sampleRoom.mix.WF := by decide
  ⟨hwf,
   (onTrackUpdate_added_restores_inputs sampleMedia sampleRoom videoTrack hwf).1 (by decide),
   (onTrackUpdate_added_restores_inputs noDecoderMedia sampleRoom openTrack hwf).2.1 rfl,
   (onTrackUpdate_added_restores_inputs sampleMedia sampleRoom closedTrack hwf).2.2.1
     (by decide),
   (onTrackUpdate_added_restores_inputs sampleMedia sampleRoom badPacketTrack hwf).2.2.2.1
     ⟨[9], by decide, by decide⟩,
   by decide, by decide,
   (onTrackUpdate_added_restores_inputs sampleMedia sampleRoom handleErrTrack hwf).2.2.2.2.1
     ⟨[[1, 2, 3]], [255, 5], [some [4, 5]], [255, 5], 1, by decide, by decide, by decide,
      by decide⟩⟩

end Sip

/-! ## What the loop did before it stopped -/

namespace Sip

section LoopTail

variable {P σ : Type} (E : Media P σ)

theorem handled_append (tr tr' : List (Effect P)) :
    handled (tr ++ tr') = handled tr ++ handled tr' := by
  induction tr with
  | nil => rfl
  | cons e tr ih => cases e <;> simp [handled, ih]

theorem okReads_append (tr tr' : List (Effect P)) :
    okReads (tr ++ tr') = okReads tr ++ okReads tr' := by
  induction tr with
  | nil => rfl
  | cons e tr ih =>
    cases e with
    | read rd => cases rd <;> simp [okReads, ih]
    | log _ => simp [okReads, ih]
    | newTrack _ => simp [okReads, ih]
    | opusDecode _ => simp [okReads, ih]
    | handleRTP _ => simp [okReads, ih]
    | closeTrack _ => simp [okReads, ih]

theorem readCount_append (tr tr' : List (Effect P)) :
    readCount (tr ++ tr') = readCount tr + readCount tr' := by
  induction tr with
  | nil => simp [readCount]
  | cons e tr ih =>
    cases e <;> simp [readCount, ih]
    omega

/-- A failed read is the last read of the loop: the loop returns right after logging it,
and every buffer read before it was parsed and passed to `HandleRTP`, in order. -/
theorem readLoop_read_none (reads : List (Option Bytes)) (s : σ)
    (h : Effect.read none ∈ (readLoop E s reads).1) :
    (readLoop E s reads).2 = .returned ∧
    (∃ front, (readLoop E s reads).1 = front ++ [.read none, .log "track.Read done"] ∧
      Effect.read none ∉ front) ∧
    (handled (readLoop E s reads).1).map some =
      (okReads (readLoop E s reads).1).map (fun b => E.unmarshal (b.take bufSize)) ∧
    readCount (readLoop E s reads).1 = (okReads (readLoop E s reads).1).length + 1 ∧
    (∃ rest, reads = (okReads (readLoop E s reads).1).map some ++ none :: rest) := by
  induction reads generalizing s with
  | nil => simp [readLoop_nil] at h
  | cons rd rest ih =>
    cases rd with
    | none =>
      rw [readLoop_none]
      exact ⟨rfl, ⟨[], rfl, by simp⟩, rfl, rfl, ⟨rest, rfl⟩⟩
    | some b =>
      cases hu : E.unmarshal (b.take bufSize) with
      | none => rw [readLoop_bad E s b rest hu] at h; simp at h
      | some pkt =>
        cases hh : E.handleRTP s pkt with
        | mk ok s' =>
          cases ok with
          | false => rw [readLoop_handleErr E s s' b pkt rest hu hh] at h; simp at h
          | true =>
            rw [readLoop_ok E s s' b pkt rest hu hh] at h ⊢
            have h' : Effect.read none ∈ (readLoop E s' rest).1 := by simpa using h
            obtain ⟨h1, ⟨front, h2, h3⟩, h4, h5, ⟨rest', h6⟩⟩ := ih s' h'
            refine ⟨h1, ⟨.read (some b) :: .handleRTP pkt :: front, ?_, ?_⟩, ?_, ?_, ⟨rest', ?_⟩⟩
            · simp only [h2, List.cons_append]
            · simpa using h3
            · simp only [handled, okReads, List.map_cons, h4, hu]
            · simp only [readCount, okReads, List.length_cons, h5]
            · simp only [okReads, List.map_cons, List.cons_append]
              rw [← h6]

/-- A packet that does not parse is the last thing the loop reads: the loop logs it and
returns without passing it to `HandleRTP`. -/
theorem readLoop_read_bad (reads : List (Option Bytes)) (s : σ) (b : Bytes)
    (h : Effect.read (some b) ∈ (readLoop E s reads).1)
    (hb : E.unmarshal (b.take bufSize) = none) :
    (readLoop E s reads).2 = .returned ∧
    ∃ front, (readLoop E s reads).1 = front ++ [.read (some b), .log "invalid packet"] := by
  induction reads generalizing s with
  | nil => simp [readLoop_nil] at h
  | cons rd rest ih =>
    cases rd with
    | none => rw [readLoop_none] at h; simp at h
    | some b' =>
      cases hu : E.unmarshal (b'.take bufSize) with
      | none =>
        rw [readLoop_bad E s b' rest hu] at h ⊢
        have e : b = b' := by simpa using h
        subst e
        exact ⟨rfl, [], rfl⟩
      | some pkt =>
        have hne : b ≠ b' := fun e => by rw [e, hu] at hb; cases hb
        cases hh : E.handleRTP s pkt with
        | mk ok s' =>
          cases ok with
          | false =>
            rw [readLoop_handleErr E s s' b' pkt rest hu hh] at h
            simp [hne] at h
          | true =>
            rw [readLoop_ok E s s' b' pkt rest hu hh] at h ⊢
            have h' : Effect.read (some b) ∈ (readLoop E s' rest).1 := by simpa [hne] using h
            obtain ⟨h1, front, h2⟩ := ih s' h'
            exact ⟨h1, .read (some b') :: .handleRTP pkt :: front, by simp only [h2, List.cons_append]⟩

end LoopTail

end Sip

/-! ## Claims on the ways the handler stops -/

namespace Sip

/-- C2, as the code has it: a packet that was read and does not parse ends the invocation.
The handler returns; the packet is the last thing read and is followed in the trace only
by the log entry and the deferred Close, so it is not passed to HandleRTP and no further
packet is read; and the track's Mixer Input is removed, which leaves the mixer's inputs
as they were before the event. -/
theorem onTrackUpdate_unmarshal_failure_stops {P σ : Type} (E : Media P σ) (r : HmsRoom)
    (track : SubscribeTrack) (b : Bytes) (hwf : r.mix.WF)
    (hb : Effect.read (some b) ∈ (onTrackUpdate E r .TrackAdded track).trace)
    (hu : E.unmarshal (b.take bufSize) = none) :
    (onTrackUpdate E r .TrackAdded track).status = .returned ∧
    (∃ front, (onTrackUpdate E r .TrackAdded track).trace =
      front ++ [.read (some b), .log "invalid packet", .closeTrack r.mix.next]) ∧
    r.mix.next ∉ (onTrackUpdate E r .TrackAdded track).room.mix.inputs ∧
    (onTrackUpdate E r .TrackAdded track).room.mix.inputs = r.mix.inputs := by
  rcases onTrackUpdate_cases E r track with ⟨_, e⟩ | ⟨_, _, e⟩ | ⟨_, _, _, e⟩ | ⟨_, _, hl, e⟩
  · rw [e] at hb; simp at hb
  · rw [e] at hb; simp at hb
  · rw [e] at hb ⊢
    have hb' : Effect.read (some b) ∈ (readLoop E E.dec0 track.reads).1 := by simpa using hb
    obtain ⟨_, front, h2⟩ := readLoop_read_bad E track.reads E.dec0 b hb' hu
    refine ⟨rfl, ⟨[.log "onTrackUpdate", .newTrack r.NewTrack.2.inp, .opusDecode true] ++ front,
      ?_⟩, ?_, Close_NewTrack_inputs r hwf⟩
    · simp only [h2, NewTrack_inp, List.append_assoc, List.cons_append, List.nil_append]
    · simp only [Close_NewTrack_inputs r hwf]
      exact WF_next_not_mem r.mix hwf
  · rw [e] at hb
    have hb' : Effect.read (some b) ∈ (readLoop E E.dec0 track.reads).1 := by simpa using hb
    obtain ⟨h1, _⟩ := readLoop_read_bad E track.reads E.dec0 b hb' hu
    rw [h1] at hl
    cases hl

end Sip

namespace Sip

/-- Witness for the amended C2: the sample track whose first packet does not parse. -/
theorem onTrackUpdate_unmarshal_failure_stops_witness :
    sampleRoom.mix.WF ∧
    Effect.read (some [9]) ∈
      (onTrackUpdate sampleMedia sampleRoom .TrackAdded badPacketTrack).trace ∧
    sampleMedia.unmarshal (List.take bufSize [9]) = none ∧
    (onTrackUpdate sampleMedia sampleRoom .TrackAdded badPacketTrack).status = .returned ∧
    (onTrackUpdate sampleMedia sampleRoom .TrackAdded badPacketTrack).room.mix.inputs = [0] :=
  have h := onTrackUpdate_unmarshal_failure_stops sampleMedia sampleRoom badPacketTrack [9]
    (by decide) (by decide) (by decide)
  ⟨by decide, by decide, by decide, h.1, h.2.2.2⟩

/-- Counterexample to C2 as stated: the sample track delivers a packet that does not parse
and then a good packet.  The handler does not continue: it returns after one read, the
good packet is never read, and the input it had added (handle 1) is no longer in the
mixer. -/
theorem unmarshal_failure_does_not_continue :
    sampleMedia.unmarshal (List.take bufSize [9]) = none ∧
    badPacketTrack.reads = [some [9], some [1, 2, 3]] ∧
    (onTrackUpdate sampleMedia sampleRoom .TrackAdded badPacketTrack).status = .returned ∧
    readCount (onTrackUpdate sampleMedia sampleRoom .TrackAdded badPacketTrack).trace = 1 ∧
    Effect.read (some [1, 2, 3]) ∉
      (onTrackUpdate sampleMedia sampleRoom .TrackAdded badPacketTrack).trace ∧
    mixerCalls (onTrackUpdate sampleMedia sampleRoom .TrackAdded badPacketTrack).trace =
      [(true, 1), (false, 1)] ∧
    1 ∉ (onTrackUpdate sampleMedia sampleRoom .TrackAdded badPacketTrack).room.mix.inputs := by
  decide

/-- C3: when a track.Read of the invocation returns an error, the handler returns.  The
failed read is the first and only failed read and is followed in the trace only by its
log entry and the deferred Close, so no packet is passed to HandleRTP and no read is made
after it; the track's Mixer Input is removed; the reads made are the track's results up
to and including the failure; and the packets passed to HandleRTP are, in order and once
each, the parsed forms of the buffers read successfully before it. -/
theorem onTrackUpdate_read_failure_stops {P σ : Type} (E : Media P σ) (r : HmsRoom)
    (track : SubscribeTrack) (hwf : r.mix.WF)
    (hr : Effect.read none ∈ (onTrackUpdate E r .TrackAdded track).trace) :
    track.kind = .RTPCodecTypeAudio ∧
    (onTrackUpdate E r .TrackAdded track).status = .returned ∧
    (∃ front, (onTrackUpdate E r .TrackAdded track).trace =
        front ++ [.read none, .log "track.Read done", .closeTrack r.mix.next] ∧
      Effect.read none ∉ front) ∧
    r.mix.next ∉ (onTrackUpdate E r .TrackAdded track).room.mix.inputs ∧
    (onTrackUpdate E r .TrackAdded track).room.mix.inputs = r.mix.inputs ∧
    (∃ rest, track.reads =
      (okReads (onTrackUpdate E r .TrackAdded track).trace).map some ++ none :: rest) ∧
    readCount (onTrackUpdate E r .TrackAdded track).trace =
      (okReads (onTrackUpdate E r .TrackAdded track).trace).length + 1 ∧
    (handled (onTrackUpdate E r .TrackAdded track).trace).map some =
      (okReads (onTrackUpdate E r .TrackAdded track).trace).map
        (fun b => E.unmarshal (b.take bufSize)) := by
  rcases onTrackUpdate_cases E r track with ⟨_, e⟩ | ⟨_, _, e⟩ | ⟨hk, _, _, e⟩ | ⟨_, _, hl, e⟩
  · rw [e] at hr; simp at hr
  · rw [e] at hr; simp at hr
  · rw [e] at hr ⊢
    have hr' : Effect.read none ∈ (readLoop E E.dec0 track.reads).1 := by simpa using hr
    obtain ⟨_, ⟨front, h2, h3⟩, h4, h5, h6⟩ := readLoop_read_none E track.reads E.dec0 hr'
    refine ⟨hk, rfl,
      ⟨[.log "onTrackUpdate", .newTrack r.NewTrack.2.inp, .opusDecode true] ++ front, ?_, ?_⟩,
      ?_, Close_NewTrack_inputs r hwf, ?_, ?_, ?_⟩
    · simp only [h2, NewTrack_inp, List.append_assoc, List.cons_append, List.nil_append]
    · simpa using h3
    · simp only [Close_NewTrack_inputs r hwf]
      exact WF_next_not_mem r.mix hwf
    · simpa [okReads_append, okReads] using h6
    · simpa [okReads_append, okReads, readCount_append, readCount] using h5
    · simpa [okReads_append, okReads, handled_append, handled] using h4
  · rw [e] at hr
    have hr' : Effect.read none ∈ (readLoop E E.dec0 track.reads).1 := by simpa using hr
    rw [(readLoop_read_none E track.reads E.dec0 hr').1] at hl
    cases hl

/-- Witness for C3: the sample track delivers one good packet and then fails. -/
theorem onTrackUpdate_read_failure_stops_witness :
    sampleRoom.mix.WF ∧
    Effect.read none ∈ (onTrackUpdate sampleMedia sampleRoom .TrackAdded closedTrack).trace ∧
    (onTrackUpdate sampleMedia sampleRoom .TrackAdded closedTrack).status = .returned ∧
    (onTrackUpdate sampleMedia sampleRoom .TrackAdded closedTrack).room.mix.inputs = [0] ∧
    handled (onTrackUpdate sampleMedia sampleRoom .TrackAdded closedTrack).trace = [[1, 2, 3]] :=
  have h := onTrackUpdate_read_failure_stops sampleMedia sampleRoom closedTrack
    (by decide) (by decide)
  ⟨by decide, by decide, h.2.1, h.2.2.2.2.1, by decide⟩

/-- C4: for a TrackAdded event whose track is not an audio track the handler returns at
once, leaving the room as it was; its only step is the log entry, so it makes no NewTrack
call (no mixer call at all), constructs no decoder and reads nothing from the track. -/
theorem onTrackUpdate_nonAudio_bridges_nothing {P σ : Type} (E : Media P σ) (r : HmsRoom)
    (track : SubscribeTrack) (hk : track.kind ≠ .RTPCodecTypeAudio) :
    (onTrackUpdate E r .TrackAdded track).status = .returned ∧
    (onTrackUpdate E r .TrackAdded track).room = r ∧
    (onTrackUpdate E r .TrackAdded track).trace = [.log "onTrackUpdate"] ∧
    mixerCalls (onTrackUpdate E r .TrackAdded track).trace = [] ∧
    (∀ ok, Effect.opusDecode ok ∉ (onTrackUpdate E r .TrackAdded track).trace) ∧
    readCount (onTrackUpdate E r .TrackAdded track).trace = 0 := by
  rw [onTrackUpdate_nonAudio E r track hk]
  exact ⟨rfl, rfl, rfl, rfl, fun ok => by simp, rfl⟩

/-- Witness for C4: the sample video track. -/
theorem onTrackUpdate_nonAudio_bridges_nothing_witness :
    videoTrack.kind ≠ .RTPCodecTypeAudio ∧
    (onTrackUpdate sampleMedia sampleRoom .TrackAdded videoTrack).room = sampleRoom ∧
    readCount (onTrackUpdate sampleMedia sampleRoom .TrackAdded videoTrack).trace = 0 :=
  have h := onTrackUpdate_nonAudio_bridges_nothing sampleMedia sampleRoom videoTrack (by decide)
  ⟨by decide, h.2.1, h.2.2.2.2.2⟩

/-- C5, as the code has it: an invocation of the handler with an update type other than
TrackAdded returns at once, makes no mixer call and leaves the room, and so the mixer's
inputs, unchanged.  The input of a bridged track is removed by the TrackAdded invocation
that added it: once that invocation has returned, the handle it was given is not in the
mixer. -/
theorem onTrackUpdate_other_changes_nothing {P σ : Type} (E : Media P σ) (r : HmsRoom)
    (typ : TrackUpdate) (track : SubscribeTrack) (ht : typ ≠ .TrackAdded) (hwf : r.mix.WF) :
    (onTrackUpdate E r typ track).status = .returned ∧
    (onTrackUpdate E r typ track).room = r ∧
    (onTrackUpdate E r typ track).trace = [.log "onTrackUpdate"] ∧
    mixerCalls (onTrackUpdate E r typ track).trace = [] ∧
    ((onTrackUpdate E r .TrackAdded track).status = .returned →
      r.mix.next ∉ (onTrackUpdate E r .TrackAdded track).room.mix.inputs) := by
  cases typ with
  | TrackAdded => exact absurd rfl ht
  | other n =>
    refine ⟨rfl, rfl, rfl, rfl, fun hs => ?_⟩
    rcases onTrackUpdate_cases E r track with ⟨_, e⟩ | ⟨_, _, e⟩ | ⟨_, _, _, e⟩ | ⟨_, _, _, e⟩
    · rw [e]; exact WF_next_not_mem r.mix hwf
    · rw [e]
      simp only [Close_NewTrack_inputs r hwf]
      exact WF_next_not_mem r.mix hwf
    · rw [e]
      simp only [Close_NewTrack_inputs r hwf]
      exact WF_next_not_mem r.mix hwf
    · rw [e] at hs; cases hs

/-- Witness for the amended C5: an update of another type for the sample track. -/
theorem onTrackUpdate_other_changes_nothing_witness :
    TrackUpdate.other 1 ≠ .TrackAdded ∧ sampleRoom.mix.WF ∧
    (onTrackUpdate sampleMedia sampleRoom (.other 1) openTrack).room = sampleRoom :=
  ⟨by decide, by decide,
    (onTrackUpdate_other_changes_nothing sampleMedia sampleRoom (.other 1) openTrack
      (by decide) (by decide)).2.1⟩

/-- Counterexample to C5 as stated: the sample open track is bridged, which adds input 1 to
the mixer while the handler waits for packets; an update of another type for that track
then leaves input 1 in the mixer. -/
theorem track_removed_event_keeps_input :
    (onTrackUpdate sampleMedia sampleRoom .TrackAdded openTrack).status = .blocked ∧
    (onTrackUpdate sampleMedia sampleRoom .TrackAdded openTrack).room.mix.inputs = [0, 1] ∧
    mixerCalls (onTrackUpdate sampleMedia sampleRoom .TrackAdded openTrack).trace =
      [(true, 1)] ∧
    1 ∈ (onTrackUpdate sampleMedia
          (onTrackUpdate sampleMedia sampleRoom .TrackAdded openTrack).room
          (.other 1) openTrack).room.mix.inputs := by
  decide

end Sip

/-! ## Claims on the room, its tracks and its output -/

namespace Sip

theorem SetOutputs_some (outs : List Writer) (r : HmsRoom) :
    SetOutputs (some r) outs =
      some { r with out := { dest := (outs.getLast?).getD r.out.dest } } := by
  induction outs generalizing r with
  | nil => rfl
  | cons w ws ih =>
    simp only [SetOutputs, SetOutput, SwitchWriter.Set]
    rw [ih]
    cases ws with
    | nil => rfl
    | cons w' ws' =>
      have hne : (w' :: ws').getLast? = some ((w' :: ws').getLast (List.cons_ne_nil _ _)) :=
        List.getLast?_eq_getLast _ _
      simp only [List.getLast?_cons_cons, hne, Option.getD_some]

theorem SetOutputs_nil_room (outs : List Writer) : SetOutputs none outs = none := by
  induction outs with
  | nil => rfl
  | cons w ws ih => simpa [SetOutputs, SetOutput] using ih

theorem mixerWrite_roomOut (r : HmsRoom) (pcm : PCM16Sample) (h : r.mix.out = .roomOut) :
    r.mixerWrite pcm = r.Output.map (fun d => (d, pcm)) := by
  simp only [HmsRoom.mixerWrite, h, SwitchWriter.WriteSample, HmsRoom.Output]
  cases r.out.Get <;> rfl

/-- C6: after any sequence of SetOutput calls on a room, Output returns the destination
of the last call, or what it returned before when there was no call; a room built by
NewHMSRoom starts with the unset destination; and the mixer of such a room was built on
the room's own switchable sink, so that after any sequence of SetOutput calls a frame it
writes is delivered to exactly the destination Output returns, and dropped when that is
unset. -/
theorem Output_is_last_SetOutput (r : HmsRoom) (outs : List Writer) (sampleRate : Nat)
    (pcm : PCM16Sample) :
    (∃ r', SetOutputs (some r) outs = some r' ∧
      r'.Output = (outs.getLast?).getD r.Output ∧ r'.mix = r.mix) ∧
    (∃ r0, NewHMSRoom none sampleRate = .ok r0 ∧ r0.Output = none ∧
      r0.mix.out = .roomOut ∧
      ∃ r', SetOutputs (some r0) outs = some r' ∧
        r'.Output = (outs.getLast?).getD none ∧
        r'.mixerWrite pcm = r'.Output.map (fun d => (d, pcm))) :=
  ⟨⟨_, SetOutputs_some outs r, rfl, rfl⟩,
   ⟨_, rfl, rfl, rfl, _, SetOutputs_some outs _, rfl, mixerWrite_roomOut _ pcm rfl⟩⟩

/-- C7: NewTrack makes one AddInput call on the room's mixer, which is the only change
to the room, and returns a Track bound to the input AddInput returned; that input was not
in the mixer before and is the one input added; the Track's WriteSample is the input's
WriteSample on the same sample, result included; and a Track from a later NewTrack call,
whatever mixer calls were made in between, is bound to a different input. -/
theorem NewTrack_binds_fresh_input {β : Type}
    (inpWrite : Nat → PCM16Sample → β → β × Option Err) (r : HmsRoom)
    (ops : List (Option Nat)) (pcm : PCM16Sample) (b : β) (hwf : r.mix.WF) :
    r.NewTrack.1 = { r with mix := r.mix.AddInput.1 } ∧
    r.NewTrack.2.inp = r.mix.AddInput.2 ∧
    r.NewTrack.2.inp ∉ r.mix.inputs ∧
    r.NewTrack.1.mix.inputs = r.mix.inputs ++ [r.NewTrack.2.inp] ∧
    r.NewTrack.2.WriteSample inpWrite pcm b = inpWrite r.NewTrack.2.inp pcm b ∧
    (HmsRoom.NewTrack { r.NewTrack.1 with mix := r.NewTrack.1.mix.apply ops }).2.inp ≠
      r.NewTrack.2.inp := by
  refine ⟨rfl, rfl, WF_next_not_mem r.mix hwf, rfl, rfl, ?_⟩
  have h := apply_next_le ops r.NewTrack.1.mix
  have h1 : r.NewTrack.1.mix.next = r.mix.next + 1 := rfl
  simp only [NewTrack_inp]
  omega

/-- Witness for C7: two tracks made on the sample room, with the first one closed in
between. -/
theorem NewTrack_binds_fresh_input_witness :
    sampleRoom.mix.WF ∧
    sampleRoom.NewTrack.2.inp = 1 ∧
    (HmsRoom.NewTrack
      { sampleRoom.NewTrack.1 with mix := sampleRoom.NewTrack.1.mix.apply [some 1] }).2.inp ≠
      sampleRoom.NewTrack.2.inp :=
  have h := NewTrack_binds_fresh_input (fun _ _ (n : Nat) => (n + 1, none)) sampleRoom
    [some 1] [] 0 (by decide)
  ⟨by decide, h.2.1, h.2.2.2.2.2⟩

/-- C9: Close returns nil on every track and room; a second Close returns nil as well and
leaves the room exactly as the first Close left it; and Close removes the track's own
input and nothing else, the other inputs staying in the mixer in their order. -/
theorem Close_total_idempotent (t : HmsTrack) (r : HmsRoom) :
    (t.Close r).2 = none ∧
    t.Close (t.Close r).1 = ((t.Close r).1, none) ∧
    t.inp ∉ (t.Close r).1.mix.inputs ∧
    (t.Close r).1.mix.inputs = r.mix.inputs.filter (fun i => i != t.inp) ∧
    (∀ i, i ≠ t.inp → (i ∈ (t.Close r).1.mix.inputs ↔ i ∈ r.mix.inputs)) ∧
    (t.Close r).1.out = r.out := by
  refine ⟨rfl, ?_, ?_, rfl, ?_, rfl⟩
  · simp only [HmsTrack.Close, RemoveInput_idem]
  · simp [HmsTrack.Close, Mixer.RemoveInput]
  · intro i hi
    simp [HmsTrack.Close, Mixer.RemoveInput, hi]

/-- C8, at the failing input: when NewTrackLocalStaticSample succeeds and opus.Encode
fails, NewParticipant returns no writer and the error, and yet has scheduled one Publish
call, carrying the one enabled track. -/
theorem NewParticipant_encode_error_still_publishes (env : ParticipantEnv) (e : Err) :
    NewParticipant { env with newTrackErr := none, encodeErr := some e } =
      { writer := none, err := some e,
        scheduled := [[{ id := env.trackId, streamId := env.streamId, enabled := true }]] } ∧
    (NewParticipant { env with newTrackErr := none, encodeErr := some e }).scheduled.length = 1 :=
  ⟨rfl, rfl⟩

end Sip

/-! ## `getConfig` -/

namespace Sip

section Config

variable {C : Type} (env : ConfigEnv C)

/-- The four ways the parsing part of `getConfig` can go. -/
theorem parseConfig_cases (body : String) (initFlag : Bool) (calls : List ConfigCall) :
    (∃ e, env.newConfig body = .error e ∧
      parseConfig env body initFlag calls =
        { conf := none, err := some e, calls := calls ++ [.newConfig body] }) ∨
    (∃ c, env.newConfig body = .ok c ∧ initFlag = false ∧
      parseConfig env body initFlag calls =
        { conf := some c, err := none, calls := calls ++ [.newConfig body] }) ∨
    (∃ c e, env.newConfig body = .ok c ∧ initFlag = true ∧ (env.init c).2 = some e ∧
      parseConfig env body initFlag calls =
        { conf := none, err := some e, calls := calls ++ [.newConfig body, .init] }) ∨
    (∃ c, env.newConfig body = .ok c ∧ initFlag = true ∧ (env.init c).2 = none ∧
      parseConfig env body initFlag calls =
        { conf := some (env.init c).1, err := none,
          calls := calls ++ [.newConfig body, .init] }) := by
  cases hn : env.newConfig body with
  | error e => exact Or.inl ⟨e, rfl, by simp [parseConfig, hn]⟩
  | ok c =>
    cases initFlag with
    | false => exact Or.inr (Or.inl ⟨c, rfl, rfl, by simp [parseConfig, hn]⟩)
    | true =>
      cases hi : env.init c with
      | mk c' oe =>
        cases oe with
        | some e =>
          exact Or.inr (Or.inr (Or.inl
            ⟨c, e, rfl, rfl, by rw [hi], by simp [parseConfig, hn, hi]⟩))
        | none =>
          exact Or.inr (Or.inr (Or.inr
            ⟨c, rfl, rfl, by rw [hi], by simp [parseConfig, hn, hi]⟩))

end Config

end Sip

namespace Sip

/-- What the recorded calls of `getConfig` say about its result. -/
theorem getConfig_calls {C : Type} (env : ConfigEnv C) (configFile configBody : String)
    (initFlag : Bool)
    (hread : ∀ p, env.readFile p ≠ .error .ErrNoConfig)
    (hparse : ∀ b, env.newConfig b ≠ .error .ErrNoConfig)
    (hinit : ∀ c, (env.init c).2 ≠ some .ErrNoConfig) :
    let res := getConfig env configFile configBody initFlag
    (res.err = some .ErrNoConfig ↔ configBody = "" ∧ configFile = "") ∧
    (configBody ≠ "" →
      (∀ p, ConfigCall.readFile p ∉ res.calls) ∧ ConfigCall.newConfig configBody ∈ res.calls) ∧
    (ConfigCall.init ∈ res.calls ↔
      initFlag = true ∧
        ∃ body c, ConfigCall.newConfig body ∈ res.calls ∧ env.newConfig body = .ok c) ∧
    (∀ e, res.err = some e → res.conf = none) ∧
    (∀ p e, ConfigCall.readFile p ∈ res.calls → env.readFile p = .error e →
      res.err = some e) ∧
    (∀ b e, ConfigCall.newConfig b ∈ res.calls → env.newConfig b = .error e →
      res.err = some e) ∧
    (∀ b c e, ConfigCall.newConfig b ∈ res.calls → env.newConfig b = .ok c →
      ConfigCall.init ∈ res.calls → (env.init c).2 = some e → res.err = some e) := by
  intro res
  by_cases hb : configBody = ""
  · by_cases hf : configFile = ""
    · have e : res = { conf := none, err := some .ErrNoConfig, calls := [] } := by
        simp [res, getConfig, hb, hf]
      rw [e]; simp [hb, hf]
    · cases hr : env.readFile configFile with
      | error e =>
        have e1 : res = { conf := none, err := some e, calls := [.readFile configFile] } := by
          simp [res, getConfig, hb, hf, hr]
        have hne : e ≠ .ErrNoConfig := fun h => hread configFile (by rw [hr, h])
        rw [e1]; simp [hb, hf, hr, hne]
        intros; subst_vars; simp_all
      | ok content =>
        have e0 : res = parseConfig env content initFlag [.readFile configFile] := by
          simp [res, getConfig, hb, hf, hr]
        rcases parseConfig_cases env content initFlag [.readFile configFile] with
          ⟨e, h1, h2⟩ | ⟨c, h1, h2, h3⟩ | ⟨c, e, h1, h2, h3, h4⟩ | ⟨c, h1, h2, h3, h4⟩
        · rw [e0, h2]
          have hne : e ≠ .ErrNoConfig := fun h => hparse content (by rw [h1, h])
          simp [hb, hf, hr, hne, h1]
          all_goals (repeat' apply And.intro)
          all_goals (intros; subst_vars; simp_all)
        · rw [e0, h3]
          simp [hb, hf, hr, h1, h2]
          all_goals (repeat' apply And.intro)
          all_goals (intros; subst_vars; simp_all)
        · rw [e0, h4]
          have hne : e ≠ .ErrNoConfig := fun h => hinit c (by rw [h3, h])
          simp [hb, hf, hr, hne, h1, h2, h3]
          all_goals (repeat' apply And.intro)
          all_goals (intros; subst_vars; simp_all)
        · rw [e0, h4]
          simp [hb, hf, hr, h1, h2, h3]
          all_goals (repeat' apply And.intro)
          all_goals (intros; subst_vars; simp_all)
  · have e0 : res = parseConfig env configBody initFlag [] := by
      simp [res, getConfig, hb]
    rcases parseConfig_cases env configBody initFlag [] with
      ⟨e, h1, h2⟩ | ⟨c, h1, h2, h3⟩ | ⟨c, e, h1, h2, h3, h4⟩ | ⟨c, h1, h2, h3, h4⟩
    · rw [e0, h2]
      have hne : e ≠ .ErrNoConfig := fun h => hparse configBody (by rw [h1, h])
      simp [hb, hne, h1]
      intros; subst_vars; simp_all
    · rw [e0, h3]
      simp [hb, h1, h2]
      intros; subst_vars; simp_all
    · rw [e0, h4]
      have hne : e ≠ .ErrNoConfig := fun h => hinit c (by rw [h3, h])
      simp [hb, hne, h1, h2, h3]
      all_goals (repeat' apply And.intro)
      all_goals (intros; subst_vars; simp_all)
    · rw [e0, h4]
      simp [hb, h1, h2, h3]
      all_goals (repeat' apply And.intro)
      all_goals (intros; subst_vars; simp_all)

/-- The parsing part of `getConfig`, result by result. -/
theorem parseConfig_results {C : Type} (env : ConfigEnv C) (body : String) (initFlag : Bool)
    (pre : List ConfigCall) :
    (∀ e, env.newConfig body = .error e →
      (parseConfig env body initFlag pre).conf = none ∧
      (parseConfig env body initFlag pre).err = some e ∧
      (parseConfig env body initFlag pre).calls = pre ++ [.newConfig body]) ∧
    (∀ c, env.newConfig body = .ok c → initFlag = false →
      (parseConfig env body initFlag pre).conf = some c ∧
      (parseConfig env body initFlag pre).err = none ∧
      (parseConfig env body initFlag pre).calls = pre ++ [.newConfig body]) ∧
    (∀ c e, env.newConfig body = .ok c → initFlag = true → (env.init c).2 = some e →
      (parseConfig env body initFlag pre).conf = none ∧
      (parseConfig env body initFlag pre).err = some e ∧
      (parseConfig env body initFlag pre).calls = pre ++ [.newConfig body, .init]) ∧
    (∀ c, env.newConfig body = .ok c → initFlag = true → (env.init c).2 = none →
      (parseConfig env body initFlag pre).conf = some (env.init c).1 ∧
      (parseConfig env body initFlag pre).err = none ∧
      (parseConfig env body initFlag pre).calls = pre ++ [.newConfig body, .init]) := by
  rcases parseConfig_cases env body initFlag pre with
    ⟨e, h1, h2⟩ | ⟨c, h1, h2, h3⟩ | ⟨c, e, h1, h2, h3, h4⟩ | ⟨c, h1, h2, h3, h4⟩
  · rw [h2]
    refine ⟨?_, ?_, ?_, ?_⟩ <;> intros <;> simp_all
  · rw [h3]
    refine ⟨?_, ?_, ?_, ?_⟩ <;> intros <;> simp_all
  · rw [h4]
    refine ⟨?_, ?_, ?_, ?_⟩ <;> intros <;> simp_all
  · rw [h4]
    refine ⟨?_, ?_, ?_, ?_⟩ <;> intros <;> simp_all

/-- With a non-empty body `getConfig` goes straight to parsing it. -/
theorem getConfig_body {C : Type} (env : ConfigEnv C) (configFile configBody : String)
    (initFlag : Bool) (hb : configBody ≠ "") :
    getConfig env configFile configBody initFlag = parseConfig env configBody initFlag [] := by
  simp [getConfig, hb]

/-- With an empty body and a file that is read, `getConfig` parses the file's content. -/
theorem getConfig_file {C : Type} (env : ConfigEnv C) (configFile content : String)
    (initFlag : Bool) (hf : configFile ≠ "") (hr : env.readFile configFile = .ok content) :
    getConfig env configFile "" initFlag =
      parseConfig env content initFlag [.readFile configFile] := by
  simp [getConfig, hf, hr]

/-- C10: getConfig on every input.  With both flags empty it returns ErrNoConfig and a nil
config and calls nothing; provided the collaborators never return ErrNoConfig themselves,
that is the only case in which ErrNoConfig is returned.  With an empty config-body and a
config flag, the file named is read first, and a read error is returned with a nil config
and nothing else is called.  The body parsed is the config-body when that is not empty,
and no file is read then, whatever the config flag holds; otherwise it is the content of
the file.  A parse error is returned with a nil config and Init is not called; after a
successful parse Init is called exactly when the initialize parameter is true; an Init
error is returned with a nil config; and otherwise the configuration is returned with a
nil error. -/
theorem getConfig_contract {C : Type} (env : ConfigEnv C) (configFile configBody : String)
    (initFlag : Bool)
    (hread : ∀ p, env.readFile p ≠ .error .ErrNoConfig)
    (hparse : ∀ b, env.newConfig b ≠ .error .ErrNoConfig)
    (hinit : ∀ c, (env.init c).2 ≠ some .ErrNoConfig) :
    let res := getConfig env configFile configBody initFlag
    (res.err = some .ErrNoConfig ↔ configBody = "" ∧ configFile = "") ∧
    (configBody ≠ "" →
      (∀ p, ConfigCall.readFile p ∉ res.calls) ∧ ConfigCall.newConfig configBody ∈ res.calls) ∧
    (ConfigCall.init ∈ res.calls ↔
      initFlag = true ∧
        ∃ body c, ConfigCall.newConfig body ∈ res.calls ∧ env.newConfig body = .ok c) ∧
    (∀ e, res.err = some e → res.conf = none) ∧
    (configBody = "" → configFile = "" →
      res.conf = none ∧ res.err = some .ErrNoConfig ∧ res.calls = []) ∧
    (configBody = "" → configFile ≠ "" → ∀ e, env.readFile configFile = .error e →
      res.conf = none ∧ res.err = some e ∧ res.calls = [.readFile configFile]) ∧
    (∀ body pre,
      (configBody ≠ "" ∧ body = configBody ∧ pre = []) ∨
      (configBody = "" ∧ configFile ≠ "" ∧ env.readFile configFile = .ok body ∧
        pre = [.readFile configFile]) →
      (∀ e, env.newConfig body = .error e →
        res.conf = none ∧ res.err = some e ∧ res.calls = pre ++ [.newConfig body]) ∧
      (∀ c, env.newConfig body = .ok c → initFlag = false →
        res.conf = some c ∧ res.err = none ∧ res.calls = pre ++ [.newConfig body]) ∧
      (∀ c e, env.newConfig body = .ok c → initFlag = true → (env.init c).2 = some e →
        res.conf = none ∧ res.err = some e ∧ res.calls = pre ++ [.newConfig body, .init]) ∧
      (∀ c, env.newConfig body = .ok c → initFlag = true → (env.init c).2 = none →
        res.conf = some (env.init c).1 ∧ res.err = none ∧
        res.calls = pre ++ [.newConfig body, .init])) := by
  intro res
  have h := getConfig_calls env configFile configBody initFlag hread hparse hinit
  refine ⟨h.1, h.2.1, h.2.2.1, h.2.2.2.1, ?_, ?_, ?_⟩
  · intro hb hf
    simp [res, getConfig, hb, hf]
  · intro hb hf e hr
    simp [res, getConfig, hb, hf, hr]
  · intro body pre hcase
    rcases hcase with ⟨hb, e1, e2⟩ | ⟨hb, hf, hr, e2⟩
    · subst e1 e2
      have e0 : res = parseConfig env body initFlag [] :=
        getConfig_body env configFile body initFlag hb
      rw [e0]
      exact parseConfig_results env body initFlag []
    · subst e2
      have e0 : res = parseConfig env body initFlag [.readFile configFile] := by
        simp only [res, hb]
        exact getConfig_file env configFile body initFlag hf hr
      rw [e0]
      exact parseConfig_results env body initFlag [.readFile configFile]

/-- Witness for C10, on the sample collaborators: a config flag naming a missing file (the
read error is returned); a config flag naming the existing file (its content is parsed
and Init is called); a config-body that does not parse; a config-body on which Init
fails; and a non-empty config-body together with a config flag (no file is read). -/
theorem getConfig_contract_witness :
    (∀ p, sampleConfigEnv.readFile p ≠ .error .ErrNoConfig) ∧
    (∀ b, sampleConfigEnv.newConfig b ≠ .error .ErrNoConfig) ∧
    (∀ c, (sampleConfigEnv.init c).2 ≠ some .ErrNoConfig) ∧
    ((getConfig sampleConfigEnv "nofile" "" true).conf = none ∧
      (getConfig sampleConfigEnv "nofile" "" true).err = some (.other "ENOENT") ∧
      (getConfig sampleConfigEnv "nofile" "" true).calls = [.readFile "nofile"]) ∧
    ((getConfig sampleConfigEnv "sip.yaml" "" true).conf = some "port: 5060!" ∧
      (getConfig sampleConfigEnv "sip.yaml" "" true).err = none ∧
      (getConfig sampleConfigEnv "sip.yaml" "" true).calls =
        [.readFile "sip.yaml", .newConfig "port: 5060", .init]) ∧
    ((getConfig sampleConfigEnv "" "bad" true).conf = none ∧
      (getConfig sampleConfigEnv "" "bad" true).err = some (.other "yaml") ∧
      (getConfig sampleConfigEnv "" "bad" true).calls = [.newConfig "bad"]) ∧
    ((getConfig sampleConfigEnv "" "noinit" true).conf = none ∧
      (getConfig sampleConfigEnv "" "noinit" true).err = some (.other "init") ∧
      (getConfig sampleConfigEnv "" "noinit" true).calls = [.newConfig "noinit", .init]) ∧
    ((∀ p, ConfigCall.readFile p ∉ (getConfig sampleConfigEnv "nofile" "port: 1" true).calls) ∧
      ConfigCall.newConfig "port: 1" ∈
        (getConfig sampleConfigEnv "nofile" "port: 1" true).calls) :=
  have h1 : ∀ p, sampleConfigEnv.readFile p ≠ .error .ErrNoConfig := by
    intro p; simp only [sampleConfigEnv]; split <;> simp
  have h2 : ∀ b, sampleConfigEnv.newConfig b ≠ .error .ErrNoConfig := by
    intro b; simp only [sampleConfigEnv]; split <;> simp
  have h3 : ∀ c, (sampleConfigEnv.init c).2 ≠ some .ErrNoConfig := by
    intro c; simp only [sampleConfigEnv]; split <;> simp
  ⟨h1, h2, h3,
   (getConfig_contract sampleConfigEnv "nofile" "" true h1 h2 h3).2.2.2.2.2.1 rfl (by decide)
     (.other "ENOENT") (by simp [sampleConfigEnv]),
   ((getConfig_contract sampleConfigEnv "sip.yaml" "" true h1 h2 h3).2.2.2.2.2.2
     "port: 5060" [.readFile "sip.yaml"]
     (Or.inr ⟨rfl, by decide, by simp [sampleConfigEnv], rfl⟩)).2.2.2 "port: 5060"
     (by simp [sampleConfigEnv]) rfl (by simp [sampleConfigEnv]),
   ((getConfig_contract sampleConfigEnv "" "bad" true h1 h2 h3).2.2.2.2.2.2
     "bad" [] (Or.inl ⟨by decide, rfl, rfl⟩)).1 (.other "yaml") (by simp [sampleConfigEnv]),
   ((getConfig_contract sampleConfigEnv "" "noinit" true h1 h2 h3).2.2.2.2.2.2
     "noinit" [] (Or.inl ⟨by decide, rfl, rfl⟩)).2.2.1 "noinit" (.other "init")
     (by simp [sampleConfigEnv]) rfl (by simp [sampleConfigEnv]),
   (getConfig_contract sampleConfigEnv "nofile" "port: 1" true h1 h2 h3).2.1 (by decide)⟩

end Sip
